import Mathlib

/-!
Shallow embedding of the OpenFloor GitHub technology-trends agent
(src/github-agent.ts).  Pure computations (query classification, trend
analysis, report rendering, envelope routing) are translated directly
from the source.  The one effectful step, the outbound search request,
is modelled by an explicit outcome value supplied to the function, and
the rate limiter by a small interleaving machine over its single shared
timestamp.  Machine integers of the source are JavaScript numbers; all
counts are natural numbers and all clock values are integers (ms), with
the float ratio comparisons of the source modelled exactly over the
rationals.
-/

namespace GitHubAgentModel

/-- Addressee of an event: the optional fields of the `to` object. -/
structure To where
  speakerUri : Option String
  serviceUrl : Option String
deriving DecidableEq

/-- Kinds of inbound events the router distinguishes: utterance events,
getManifests events, and everything else (ignored). -/
inductive EventType
  | utterance
  | getManifests
  | other
deriving DecidableEq

/-- One token of the dialog features; only the `value` field is read by
the agent. -/
structure Token where
  value : String
deriving DecidableEq

/-- An inbound event.  `tokens = none` models any broken link of the
optional chain `parameters?.dialogEvent?.features?.text?.tokens` in the
source; `to = none` models an absent `to` field (broadcast). -/
structure InEvent where
  eventType : EventType
  «to» : Option To
  tokens : Option (List Token)
deriving DecidableEq

/-- Sender identity of an envelope. -/
structure Sender where
  speakerUri : String
  serviceUrl : Option String
deriving DecidableEq

/-- Schema object of an envelope; the source only reads and copies the
version field. -/
structure Schema where
  version : String
deriving DecidableEq

/-- Conversation object of an envelope; the source only reads and
copies the id field. -/
structure Conversation where
  id : String
deriving DecidableEq

/-- Protocol envelope, parameterized by the event type so that the same
shape serves the inbound and the outbound side. -/
structure Envelope (ev : Type) where
  schema : Schema
  conversation : Conversation
  sender : Sender
  events : List ev
deriving DecidableEq

/-- Outbound events the agent produces: text utterances built by
createTextUtterance, and publishManifests responses.  The manifest
payload is kept as the opaque serialized manifest of the agent. -/
inductive OutEvent
  | utterance (speakerUri : String) (text : String) (toSpeakerUri : String)
  | publishManifests (toSpeakerUri : String) (servicingManifests : List String)
deriving DecidableEq

/-- The agent identity and manifest, as configured at construction. -/
structure Agent where
  speakerUri : String
  serviceUrl : String
  manifest : String
deriving DecidableEq

/-- GitHub repository record, the fields the agent reads.  An absent or
null description or language is modelled by the empty string, matching
the falsiness tests of the source. -/
structure GitHubRepo where
  name : String
  description : String
  stargazers_count : Nat
  forks_count : Nat
  language : String
  updated_at : String
  html_url : String
deriving DecidableEq

/-- Parsed body of a successful search response. -/
structure GitHubSearchResponse where
  total_count : Nat
  items : List GitHubRepo
deriving DecidableEq

/-- Outcome of the one fetch call inside searchGitHub: a parsed ok
response, a non-ok HTTP status, or a thrown error (network failure,
malformed payload, and so on) carrying its message. -/
inductive FetchOutcome
  | ok (resp : GitHubSearchResponse)
  | httpError (status : Nat)
  | thrown (msg : String)
deriving DecidableEq

/-! ### String helpers mirroring the JavaScript primitives used -/

/-- Whether the first character list starts the second one. -/
def listStartsWith : List Char → List Char → Bool
  | [], _ => true
  | _ :: _, [] => false
  | c :: ps, d :: ss => c == d && listStartsWith ps ss

/-- Whether the pattern occurs as a contiguous run of the list. -/
def listContainsSeq (pat : List Char) : List Char → Bool
  | [] => pat.isEmpty
  | c :: rest => listStartsWith pat (c :: rest) || listContainsSeq pat rest

/-- JavaScript String.prototype.includes. -/
def strContains (s pat : String) : Bool := listContainsSeq pat.data s.data

/-- JavaScript String.prototype.toLowerCase on the alphabet the agent
uses (characterwise lowering). -/
def jsToLower (s : String) : String := ⟨s.data.map Char.toLower⟩

/-- Comma insertion pass of Number.prototype.toLocaleString, run over
the reversed digit list. -/
def commaRevAux : Nat → List Char → List Char
  | _, [] => []
  | i, c :: cs =>
    if i ≠ 0 ∧ i % 3 = 0 then ',' :: c :: commaRevAux (i + 1) cs
    else c :: commaRevAux (i + 1) cs

/-- JavaScript Number.prototype.toLocaleString for a natural number:
decimal digits grouped by thousands. -/
def jsLocaleString (n : Nat) : String :=
  ⟨(commaRevAux 0 (toString n).data.reverse).reverse⟩

/-- JavaScript Math.round applied to the nonnegative quotient num/denom
(round half up). -/
def jsRound (num denom : Nat) : Nat := (2 * num + denom) / (2 * denom)

/-! ### QueryClassifier: isTechQuery -/

/-- The fixed keyword list of isTechQuery, verbatim from the source. -/
def techIndicators : List String :=
  ["technology", "framework", "library", "software", "programming",
   "development", "developer", "code", "github", "open source",
   "javascript", "python", "react", "nodejs", "django", "flask",
   "vue", "angular", "typescript", "rust", "go", "kotlin",
   "adoption", "popular", "trending", "tools", "stack"]

/-- Case-insensitive keyword-substring classifier isTechQuery. -/
def isTechQuery (query : String) : Bool :=
  let queryLower := jsToLower query
  techIndicators.any fun indicator => strContains queryLower indicator

/-! ### SearchResultAnalyzer -/

/-- Adoption level derived from the total match count in
analyzeTechnologyTrends. -/
def adoptionLevel (totalCount : Nat) : String :=
  if totalCount > 50000 then "Very High"
  else if totalCount > 10000 then "High"
  else if totalCount > 1000 then "Moderate"
  else if totalCount > 100 then "Emerging"
  else "Niche"

/-- Increment the count of a language in the insertion-ordered
association list, mirroring the plain-object accumulator. -/
def bumpLanguage : List (String × Nat) → String → List (String × Nat)
  | [], lang => [(lang, 1)]
  | (l, c) :: rest, lang =>
    if l = lang then (l, c + 1) :: rest else (l, c) :: bumpLanguage rest lang

/-- Count occurrences of each non-empty language field, in
first-encountered order. -/
def countLanguages (items : List GitHubRepo) : List (String × Nat) :=
  items.foldl (fun acc repo =>
    if repo.language = "" then acc else bumpLanguage acc repo.language) []

/-- Insertion of one entry into a list sorted by count descending.
The inserted entry comes from earlier in the original order than every
entry of the list, and it is placed before the first entry whose count
does not exceed its own, so it stays ahead of entries with an equal
count. -/
def insertByCountDesc (x : String × Nat) : List (String × Nat) → List (String × Nat)
  | [] => [x]
  | y :: ys => if x.2 ≥ y.2 then x :: y :: ys else y :: insertByCountDesc x ys

/-- Sort by count descending by inserting the head into the sorted
tail.  Entries with equal counts keep their first-encountered order,
as the stable Array.prototype.sort of the source does under the
descending count comparator. -/
def sortByCountDesc : List (String × Nat) → List (String × Nat)
  | [] => []
  | x :: xs => insertByCountDesc x (sortByCountDesc xs)

/-- Top three languages by count, ties in first-encountered order. -/
def topLanguages (items : List GitHubRepo) : List (String × Nat) :=
  (sortByCountDesc (countLanguages items)).take 3

/-- Rendered adoption analysis section, analyzeTechnologyTrends. -/
def analyzeTechnologyTrends (data : GitHubSearchResponse) : String :=
  if data.items.isEmpty then "" else
    let totalStars := (data.items.map GitHubRepo.stargazers_count).sum
    let totalForks := (data.items.map GitHubRepo.forks_count).sum
    let avgStars := jsRound totalStars data.items.length
    let langs := countLanguages data.items
    "**Technology Adoption Analysis:**\n"
    ++ "• Total repositories: " ++ jsLocaleString data.total_count ++ "\n"
    ++ "• Adoption level: " ++ adoptionLevel data.total_count ++ "\n"
    ++ "• Average stars (top repos): " ++ jsLocaleString avgStars ++ "\n"
    ++ "• Total community engagement: " ++ jsLocaleString totalStars ++ " stars, "
    ++ jsLocaleString totalForks ++ " forks\n"
    ++ (if langs.isEmpty then "" else
        "• Popular languages: "
        ++ String.intercalate ", " ((topLanguages data.items).map
            fun p => p.1 ++ " (" ++ toString p.2 ++ ")")
        ++ "\n")
    ++ "\n"

/-- Day difference computed by analyzeRecentActivity: floor of the ms
difference divided by one day.  The clock value now and the parse of
the timestamp string, new Date(s).getTime(), are explicit inputs. -/
def daysAgo (parse : String → Int) (now : Int) (updated : String) : Int :=
  (now - parse updated).fdiv 86400000

/-- Whether a repository counts into the 30-day window (the guard on a
non-empty timestamp included). -/
def isVeryRecent (parse : String → Int) (now : Int) (repo : GitHubRepo) : Bool :=
  repo.updated_at != "" && decide (daysAgo parse now repo.updated_at ≤ 30)

/-- Whether a repository counts into the 90-day window (the guard on a
non-empty timestamp included). -/
def isRecent (parse : String → Int) (now : Int) (repo : GitHubRepo) : Bool :=
  repo.updated_at != "" && decide (daysAgo parse now repo.updated_at ≤ 90)

/-- Activity level from the two float ratios of the source, modelled
exactly over the rationals. -/
def activityLevel (veryRecentR recentR : ℚ) : String :=
  if veryRecentR > 0.7 then "Very Active"
  else if recentR > 0.5 then "Active"
  else if recentR > 0.3 then "Moderate"
  else "Low"

/-- Rendered development-activity section, analyzeRecentActivity. -/
def analyzeRecentActivity (parse : String → Int) (now : Int)
    (repositories : List GitHubRepo) : String :=
  if repositories.isEmpty then "" else
    let veryRecentUpdates := repositories.countP (isVeryRecent parse now)
    let recentUpdates := repositories.countP (isRecent parse now)
    let lvl := activityLevel
      ((veryRecentUpdates : ℚ) / (repositories.length : ℚ))
      ((recentUpdates : ℚ) / (repositories.length : ℚ))
    "**Development Activity:**\n"
    ++ "• Recently updated (30 days): " ++ toString veryRecentUpdates ++ "/"
    ++ toString repositories.length ++ " repositories\n"
    ++ "• Active projects (90 days): " ++ toString recentUpdates ++ "/"
    ++ toString repositories.length ++ " repositories\n"
    ++ "• Overall activity level: " ++ lvl ++ "\n"
    ++ "• Community health: "
    ++ (if lvl = "Very Active" ∨ lvl = "Active" then "Strong" else "Moderate")
    ++ " developer engagement\n\n"

/-- The description line transformation: empty becomes a placeholder,
long descriptions are truncated to 100 characters plus an ellipsis. -/
def truncateDescription (d : String) : String :=
  let description := if d = "" then "No description" else d
  if description.length > 100 then (description.take 100) ++ "..." else description

/-- One repository summary block of formatRepositoryData, at the given
zero-based position. -/
def formatRepo (idx : Nat) (repo : GitHubRepo) : String :=
  "**" ++ toString (idx + 1) ++ ". " ++ repo.name ++ "** ("
  ++ jsLocaleString repo.stargazers_count ++ " ⭐, "
  ++ jsLocaleString repo.forks_count ++ " 🍴)\n"
  ++ "   Language: " ++ (if repo.language = "" then "Unknown" else repo.language)
  ++ " | Updated: " ++ repo.updated_at.take 10 ++ "\n"
  ++ "   Description: " ++ truncateDescription repo.description ++ "\n"
  ++ "   URL: " ++ repo.html_url ++ "\n\n"

/-- Summary blocks for all repositories in order. -/
def formatRepoLines : Nat → List GitHubRepo → String
  | _, [] => ""
  | i, repo :: rest => formatRepo i repo ++ formatRepoLines (i + 1) rest

/-- Rendered repository listing section, formatRepositoryData. -/
def formatRepositoryData (repositories : List GitHubRepo) : String :=
  "**Top " ++ toString repositories.length ++ " Repositories:**\n"
  ++ formatRepoLines 0 repositories

/-! ### ExternalSearchClient: searchGitHub -/

/-- The message returned when the response has no items. -/
def noReposMessage (technology : String) : String :=
  "**GitHub Technology Research for: " ++ technology
  ++ "**\n\nNo relevant repositories found."

/-- The degraded message returned when a thrown error message mentions
a timeout. -/
def timeoutMessage (technology : String) : String :=
  "**GitHub Technology Research for: " ++ technology
  ++ "**\n\nRequest timeout - GitHub may be experiencing high load. "
  ++ "Technology data available but slower than expected."

/-- Header of a non-empty report. -/
def searchHeader (technology : String) : String :=
  "**GitHub Technology Trends for: " ++ technology ++ "**\n\n"

/-- The searchGitHub body after the rate-limit wait, as a function of
the fetch outcome.  A non-ok status throws a GitHub API error which the
inner catch rethrows unless its message mentions a timeout; a thrown
error is converted to the degraded timeout message or rethrown the same
way.  Err is the propagated error message. -/
def searchGitHub (parse : String → Int) (now : Int) (technology : String) :
    FetchOutcome → Except String String
  | .ok data =>
    if data.items.isEmpty then
      .ok (noReposMessage technology)
    else
      .ok (searchHeader technology
        ++ formatRepositoryData data.items
        ++ analyzeTechnologyTrends data
        ++ analyzeRecentActivity parse now data.items)
  | .httpError status =>
    let msg := "GitHub API error: " ++ toString status
    if strContains msg "timeout" then .ok (timeoutMessage technology) else .error msg
  | .thrown msg =>
    if strContains msg "timeout" then .ok (timeoutMessage technology) else .error msg

/-! ### EnvelopeRouter: handleTechQuery and processEnvelope -/

/-- Concatenation of the token values, tokens.map(value).join. -/
def joinTokenValues (tokens : List Token) : String :=
  String.join (tokens.map Token.value)

/-- Prompt returned when no tokens are present. -/
def needTechMessage : String :=
  "🔧 I need a technology or framework name to research on GitHub!"

/-- Redirect returned when the classifier rejects the query. -/
def domainMismatchMessage : String :=
  "🔧 I specialize in technology trends. Try queries about programming frameworks, libraries, tools, or development technologies."

/-- Apology returned by the catch-all handler of handleTechQuery. -/
def apologyMessage : String :=
  "🔧 I encountered an error while searching GitHub. Please try again with a different technology name."

/-- The utterance handler, generalized over the classifier so that
non-invocation on the early-return paths is expressible; the agent
method is the instance at isTechQuery.  The try/catch of the source is
the match on the Except result: an error becomes the apology. -/
def handleTechQueryWith (isTech : String → Bool) (a : Agent)
    (parse : String → Int) (now : Int) (outcome : FetchOutcome)
    (e : InEvent) (env : Envelope InEvent) : OutEvent :=
  match e.tokens with
  | none => .utterance a.speakerUri needTechMessage env.sender.speakerUri
  | some ts =>
    if ts.length = 0 then
      .utterance a.speakerUri needTechMessage env.sender.speakerUri
    else
      let technology := joinTokenValues ts
      if ¬ isTech technology then
        .utterance a.speakerUri domainMismatchMessage env.sender.speakerUri
      else
        match searchGitHub parse now technology outcome with
        | .ok results => .utterance a.speakerUri results env.sender.speakerUri
        | .error _ => .utterance a.speakerUri apologyMessage env.sender.speakerUri

/-- The handler as the source has it, with the fixed classifier. -/
def handleTechQuery (a : Agent) (parse : String → Int) (now : Int)
    (outcome : FetchOutcome) (e : InEvent) (env : Envelope InEvent) : OutEvent :=
  handleTechQueryWith isTechQuery a parse now outcome e env

/-- The addressing test of processEnvelope: no `to` field, or a
matching speaker URI, or a matching service URL. -/
def addressedToMe (a : Agent) (e : InEvent) : Bool :=
  match e.«to» with
  | none => true
  | some t => t.speakerUri == some a.speakerUri || t.serviceUrl == some a.serviceUrl

/-- The response (if any) generated for one inbound event, given the
fetch outcome its handling would observe. -/
def respondToEvent (a : Agent) (parse : String → Int) (now : Int)
    (outcome : FetchOutcome) (env : Envelope InEvent) (e : InEvent) : Option OutEvent :=
  if addressedToMe a e = true ∧ e.eventType = EventType.utterance then
    some (handleTechQuery a parse now outcome e env)
  else if addressedToMe a e = true ∧ e.eventType = EventType.getManifests then
    some (.publishManifests env.sender.speakerUri [a.manifest])
  else
    none

/-- The event loop of processEnvelope: each event at its position gets
the fetch outcome of that position and contributes its response, if
any, in order. -/
def processEventsAux (a : Agent) (parse : String → Int) (now : Int)
    (fetch : Nat → FetchOutcome) (env : Envelope InEvent) :
    Nat → List InEvent → List OutEvent
  | _, [] => []
  | i, e :: rest =>
    match respondToEvent a parse now (fetch i) env e with
    | some r => r :: processEventsAux a parse now fetch env (i + 1) rest
    | none => processEventsAux a parse now fetch env (i + 1) rest

/-- processEnvelope: route every inbound event, then assemble the
outbound envelope copying the schema version and conversation id and
stamping the agent as sender. -/
def processEnvelope (a : Agent) (parse : String → Int) (now : Int)
    (fetch : Nat → FetchOutcome) (inEnvelope : Envelope InEvent) : Envelope OutEvent :=
  { schema := { version := inEnvelope.schema.version }
    conversation := { id := inEnvelope.conversation.id }
    sender := { speakerUri := a.speakerUri, serviceUrl := some a.serviceUrl }
    events := processEventsAux a parse now fetch inEnvelope 0 inEnvelope.events }

/-- Per-position responses of the event loop, kept as options so that
the contribution of each position is visible. -/
def eventResponses (a : Agent) (parse : String → Int) (now : Int)
    (fetch : Nat → FetchOutcome) (env : Envelope InEvent) :
    Nat → List InEvent → List (Option OutEvent)
  | _, [] => []
  | i, e :: rest =>
    respondToEvent a parse now (fetch i) env e
      :: eventResponses a parse now fetch env (i + 1) rest

/-! ### RateLimiter: an interleaving machine over the shared timestamp

The rateLimit method runs on a single cooperative thread.  Each call
has at most two atomic segments: entry (read lastRequestTime, compute
the wait; if no wait is needed the same segment already writes the
timestamp back and returns) and, when a wait was needed, the resume
after the timer (write the current time to lastRequestTime and return).
Between the two segments other calls may run.  The request is issued
immediately after the call returns, so the request time of a call is
the time of its returning segment. -/

/-- The configured minimum interval in ms. -/
def rateLimitDelay : Int := 2000

/-- Progress of one caller through a rateLimit call. -/
inductive CallerPhase
  | idle
  | sleeping (wake : Int)
  | finished (requestTime : Int)
deriving DecidableEq

/-- Machine state: the current clock, the shared lastRequestTime, and
the per-caller phases. -/
structure RLState where
  now : Int
  last : Int
  phases : Nat → CallerPhase

/-- Update one caller phase. -/
def setPhase (ph : Nat → CallerPhase) (c : Nat) (p : CallerPhase) : Nat → CallerPhase :=
  fun d => if d = c then p else ph d

/-- Atomic segments: a caller entering rateLimit at a clock time, and a
sleeping caller resuming at a clock time. -/
inductive RLAction
  | enter (c : Nat) (t : Int)
  | resume (c : Nat) (t : Int)

/-- One machine step.  Entry computes waitTime from the shared
timestamp; a positive wait suspends until at least t + waitTime,
otherwise the timestamp is written and the call returns at once.  A
resume at or after the wake time writes the current time to the shared
timestamp and returns.  The clock never goes backward.  Invalid steps
produce none. -/
def rlStep (s : RLState) : RLAction → Option RLState
  | .enter c t =>
    if s.now ≤ t ∧ s.phases c = .idle then
      if rateLimitDelay - (t - s.last) > 0 then
        some { now := t, last := s.last,
               phases := setPhase s.phases c (.sleeping (t + (rateLimitDelay - (t - s.last)))) }
      else
        some { now := t, last := t, phases := setPhase s.phases c (.finished t) }
    else none
  | .resume c t =>
    match s.phases c with
    | .sleeping wake =>
      if s.now ≤ t ∧ wake ≤ t then
        some { now := t, last := t, phases := setPhase s.phases c (.finished t) }
      else none
    | _ => none

/-- Run a sequence of segments. -/
def rlRun : RLState → List RLAction → Option RLState
  | s, [] => some s
  | s, act :: rest =>
    match rlStep s act with
    | some s1 => rlRun s1 rest
    | none => none

/-- The machine start state: the process starts with
lastRequestTime = 0 at clock 0 and no call in progress. -/
def rlInit : RLState :=
  { now := 0, last := 0, phases := fun _ => .idle }

/-- The request time of a caller in a state, when its call finished. -/
def finishedTime (s : RLState) (c : Nat) : Option Int :=
  match s.phases c with
  | .finished r => some r
  | _ => none

/-- The request time a caller reaches after a schedule from the start
state. -/
def observedRequestTime (acts : List RLAction) (c : Nat) : Option Int :=
  (rlRun rlInit acts).bind fun s => finishedTime s c

/-- The claim under examination: on every valid schedule, the request
times of two distinct callers are never closer than the configured
minimum interval. -/
def rlMinSpacingClaim : Prop :=
  ∀ acts c1 c2 r1 r2, c1 ≠ c2 →
    observedRequestTime acts c1 = some r1 →
    observedRequestTime acts c2 = some r2 →
    rateLimitDelay ≤ r1 - r2 ∨ rateLimitDelay ≤ r2 - r1

/-- The action sequences a single complete rateLimit call can
contribute: entry only (the no-wait path), or entry plus resume. -/
inductive OneCall : Nat → List RLAction → Prop
  | noWait (c : Nat) (t : Int) : OneCall c [.enter c t]
  | withWait (c : Nat) (t u : Int) : OneCall c [.enter c t, .resume c u]

/-! ### Concrete fixtures used by the witnesses -/

/-- A sample agent. -/
def agentW : Agent :=
  { speakerUri := "tag:openfloor-research.com,2025:github-agent"
    serviceUrl := "http://localhost:8080"
    manifest := "github-agent-manifest" }

/-- A sample date parse assigning every timestamp the epoch. -/
def parseW : String → Int := fun _ => 0

/-- An addressed utterance event asking about react. -/
def reactEvent : InEvent :=
  { eventType := .utterance, «to» := none, tokens := some [{ value := "react" }] }

/-- An utterance event with no extractable tokens. -/
def emptyTokensEvent : InEvent :=
  { eventType := .utterance, «to» := none, tokens := none }

/-- An utterance event whose query the classifier rejects. -/
def cookingEvent : InEvent :=
  { eventType := .utterance, «to» := none, tokens := some [{ value := "cooking recipes" }] }

/-- An utterance event addressed by service URL to this agent but by
speaker URI to a different agent. -/
def serviceUrlEvent : InEvent :=
  { eventType := .utterance
    «to» := some { speakerUri := some "tag:example.com,2025:someone-else"
                   serviceUrl := some "http://localhost:8080" }
    tokens := some [{ value := "react" }] }

/-- A sample inbound envelope with two utterance events. -/
def envW : Envelope InEvent :=
  { schema := { version := "1.0.0" }
    conversation := { id := "conv-1" }
    sender := { speakerUri := "tag:example.com,2025:user", serviceUrl := none }
    events := [reactEvent, reactEvent] }

/-- A sample successful response with one repository. -/
def respW : GitHubSearchResponse :=
  { total_count := 42
    items := [{ name := "react", description := "ui", stargazers_count := 5,
                forks_count := 1, language := "JavaScript",
                updated_at := "2025-01-01T00:00:00Z", html_url := "https://x" }] }

/-- A per-position fetch assignment where position 0 fails with a
network error and position 1 succeeds. -/
def fetchW : Nat → FetchOutcome :=
  fun i => if i = 0 then .thrown "connect ECONNREFUSED" else .ok respW

/-- A sample repository used for activity-analysis instances. -/
def repoW : GitHubRepo :=
  { name := "vue", description := "framework", stargazers_count := 7,
    forks_count := 2, language := "TypeScript",
    updated_at := "2025-01-01T00:00:00Z", html_url := "https://y" }

/-- First repository of the fixed synthetic search result. -/
def syntheticRepoA : GitHubRepo :=
  { name := "alpha", description := "first", stargazers_count := 100,
    forks_count := 10, language := "Go",
    updated_at := "2025-01-01T00:00:00Z", html_url := "https://a" }

/-- Second repository of the fixed synthetic search result. -/
def syntheticRepoB : GitHubRepo :=
  { name := "beta", description := "second", stargazers_count := 200,
    forks_count := 20, language := "Go",
    updated_at := "2025-02-01T00:00:00Z", html_url := "https://b" }

/-- Third repository of the fixed synthetic search result. -/
def syntheticRepoC : GitHubRepo :=
  { name := "gamma", description := "third", stargazers_count := 300,
    forks_count := 30, language := "Rust",
    updated_at := "2025-03-01T00:00:00Z", html_url := "https://c" }

/-- The fixed synthetic search result of the round-trip property: three
items, total count 12000, stars 100/200/300, languages Go/Go/Rust. -/
def syntheticResult : GitHubSearchResponse :=
  { total_count := 12000, items := [syntheticRepoA, syntheticRepoB, syntheticRepoC] }

/-- State reached after caller 0 runs one full rate-limited call from
the start state, entering at 0 and resuming at 2000. -/
def seqS1 : RLState :=
  { now := 2000, last := 2000,
    phases := setPhase (setPhase (fun _ => .idle) 0 (.sleeping 2000)) 0 (.finished 2000) }

/-- State reached after caller 1 then runs one full call sequentially,
entering at 2500 and resuming at 4000. -/
def seqS2 : RLState :=
  { now := 4000, last := 4000,
    phases := setPhase (setPhase seqS1.phases 1 (.sleeping 4000)) 1 (.finished 4000) }

/-! ### Theorems -/

/-- C1: for every inbound envelope, the outbound envelope produced by
processEnvelope carries a conversation id equal to the inbound one and
a schema version equal to the inbound one. -/
theorem c1_outbound_preserves_ids (a : Agent) (parse : String → Int) (now : Int)
    (fetch : Nat → FetchOutcome) (env : Envelope InEvent) :
    (processEnvelope a parse now fetch env).conversation.id = env.conversation.id ∧
    (processEnvelope a parse now fetch env).schema.version = env.schema.version :=
  ⟨rfl, rfl⟩

/-- C3: the adoption level is Very High iff the total count exceeds
50000, else High iff it exceeds 10000, else Moderate iff it exceeds
1000, else Emerging iff it exceeds 100, else Niche; in particular
50000 yields High and 50001 yields Very High. -/
theorem c3_adoption_thresholds :
    (∀ n : Nat,
      (adoptionLevel n = "Very High" ↔ 50000 < n) ∧
      (adoptionLevel n = "High" ↔ 10000 < n ∧ n ≤ 50000) ∧
      (adoptionLevel n = "Moderate" ↔ 1000 < n ∧ n ≤ 10000) ∧
      (adoptionLevel n = "Emerging" ↔ 100 < n ∧ n ≤ 1000) ∧
      (adoptionLevel n = "Niche" ↔ n ≤ 100)) ∧
    adoptionLevel 50000 = "High" ∧ adoptionLevel 50001 = "Very High" := by
  refine ⟨fun n => ?_, by decide, by decide⟩
  by_cases h1 : 50000 < n
  · have e : adoptionLevel n = "Very High" := by simp [adoptionLevel, h1]
    exact ⟨iff_of_true e h1,
      iff_of_false (by rw [e]; decide) (by omega),
      iff_of_false (by rw [e]; decide) (by omega),
      iff_of_false (by rw [e]; decide) (by omega),
      iff_of_false (by rw [e]; decide) (by omega)⟩
  · by_cases h2 : 10000 < n
    · have e : adoptionLevel n = "High" := by simp [adoptionLevel, h1, h2]
      exact ⟨iff_of_false (by rw [e]; decide) h1,
        iff_of_true e ⟨h2, by omega⟩,
        iff_of_false (by rw [e]; decide) (by omega),
        iff_of_false (by rw [e]; decide) (by omega),
        iff_of_false (by rw [e]; decide) (by omega)⟩
    · by_cases h3 : 1000 < n
      · have e : adoptionLevel n = "Moderate" := by simp [adoptionLevel, h1, h2, h3]
        exact ⟨iff_of_false (by rw [e]; decide) h1,
          iff_of_false (by rw [e]; decide) (by omega),
          iff_of_true e ⟨h3, by omega⟩,
          iff_of_false (by rw [e]; decide) (by omega),
          iff_of_false (by rw [e]; decide) (by omega)⟩
      · by_cases h4 : 100 < n
        · have e : adoptionLevel n = "Emerging" := by simp [adoptionLevel, h1, h2, h3, h4]
          exact ⟨iff_of_false (by rw [e]; decide) h1,
            iff_of_false (by rw [e]; decide) (by omega),
            iff_of_false (by rw [e]; decide) (by omega),
            iff_of_true e ⟨h4, by omega⟩,
            iff_of_false (by rw [e]; decide) (by omega)⟩
        · have e : adoptionLevel n = "Niche" := by simp [adoptionLevel, h1, h2, h3, h4]
          exact ⟨iff_of_false (by rw [e]; decide) h1,
            iff_of_false (by rw [e]; decide) (by omega),
            iff_of_false (by rw [e]; decide) (by omega),
            iff_of_false (by rw [e]; decide) (by omega),
            iff_of_true e (by omega)⟩

set_option maxRecDepth 20000 in
/-- C9: on the fixed synthetic search result (3 items, total count
12000, stars 100/200/300, languages Go/Go/Rust) the trend analysis
deterministically reproduces adoption level High, average stars 200,
and top language Go with count 2 ahead of Rust with count 1, and the
rendered section reads exactly as expected; on tied counts the
language ranking keeps first-encountered order, as the stable sort of
the source does. -/
theorem c9_synthetic_roundtrip :
    adoptionLevel syntheticResult.total_count = "High" ∧
    jsRound ((syntheticResult.items.map GitHubRepo.stargazers_count).sum)
        syntheticResult.items.length = 200 ∧
    topLanguages syntheticResult.items = [("Go", 2), ("Rust", 1)] ∧
    analyzeTechnologyTrends syntheticResult =
      "**Technology Adoption Analysis:**\n• Total repositories: 12,000\n• Adoption level: High\n• Average stars (top repos): 200\n• Total community engagement: 600 stars, 60 forks\n• Popular languages: Go (2), Rust (1)\n\n" ∧
    topLanguages [syntheticRepoA, syntheticRepoC] = [("Go", 1), ("Rust", 1)] ∧
    sortByCountDesc [("Alpha", 1), ("Beta", 1), ("Gamma", 2)] =
      [("Gamma", 2), ("Alpha", 1), ("Beta", 1)] :=
  ⟨by decide, by decide, by decide, by decide, by decide, by decide⟩

/-- C6: an addressed utterance whose dialog features carry zero text
tokens is answered with exactly the need-a-technology-name prompt, for
every classifier and every fetch outcome, so neither the classifier nor
the search client is consulted. -/
theorem c6_empty_tokens_prompt (a : Agent) (parse : String → Int) (now : Int)
    (e : InEvent) (env : Envelope InEvent)
    (he : e.tokens = none ∨ e.tokens = some []) :
    (∀ (isTech : String → Bool) (outcome : FetchOutcome),
        handleTechQueryWith isTech a parse now outcome e env =
          .utterance a.speakerUri needTechMessage env.sender.speakerUri) ∧
    (∀ outcome : FetchOutcome,
        handleTechQuery a parse now outcome e env =
          .utterance a.speakerUri needTechMessage env.sender.speakerUri) := by
  have key : ∀ (isTech : String → Bool) (outcome : FetchOutcome),
      handleTechQueryWith isTech a parse now outcome e env =
        .utterance a.speakerUri needTechMessage env.sender.speakerUri := by
    intro isTech outcome
    rcases he with h | h <;> simp [handleTechQueryWith, h]
  exact ⟨key, fun outcome => key isTechQuery outcome⟩

/-- C6 witness at a concrete tokenless event, classifier, and fetch
outcome. -/
theorem c6_witness :
    handleTechQueryWith (fun _ => true) agentW parseW 0 (.thrown "boom")
        emptyTokensEvent envW =
      .utterance agentW.speakerUri needTechMessage envW.sender.speakerUri :=
  (c6_empty_tokens_prompt agentW parseW 0 emptyTokensEvent envW (Or.inl rfl)).1
    (fun _ => true) (.thrown "boom")

/-- C7: an utterance whose extracted query the classifier rejects is
answered with the domain-mismatch prompt for every fetch outcome, so
the search step is never reached. -/
theorem c7_out_of_domain (a : Agent) (parse : String → Int) (now : Int)
    (e : InEvent) (env : Envelope InEvent) (ts : List Token)
    (hts : e.tokens = some ts) (hne : ts ≠ [])
    (hrej : isTechQuery (joinTokenValues ts) = false) :
    ∀ outcome : FetchOutcome,
      handleTechQuery a parse now outcome e env =
        .utterance a.speakerUri domainMismatchMessage env.sender.speakerUri := by
  intro outcome
  have hlen : ts.length ≠ 0 := by simpa using hne
  simp [handleTechQuery, handleTechQueryWith, hts, hlen, hrej]

/-- C7 witness at a concrete rejected query. -/
theorem c7_witness :
    handleTechQuery agentW parseW 0 (.ok respW) cookingEvent envW =
      .utterance agentW.speakerUri domainMismatchMessage envW.sender.speakerUri :=
  c7_out_of_domain agentW parseW 0 cookingEvent envW [{ value := "cooking recipes" }]
    rfl (by decide) (by decide) (.ok respW)

/-- C8: a search returning zero items is not an error and renders only
the no-repositories-found message, with none of the three report
sections. -/
theorem c8_empty_results (parse : String → Int) (now : Int) (technology : String)
    (resp : GitHubSearchResponse) (h : resp.items = []) :
    searchGitHub parse now technology (.ok resp) = .ok (noReposMessage technology) := by
  simp [searchGitHub, h]

/-- C8 witness at the concrete empty response. -/
theorem c8_witness :
    searchGitHub parseW 0 "react" (.ok { total_count := 0, items := [] }) =
      .ok (noReposMessage "react") :=
  c8_empty_results parseW 0 "react" { total_count := 0, items := [] } rfl

/-- C10: an event is treated as addressed to the agent iff its `to`
field is absent, or its speaker URI matches, or its service URL
matches; an utterance whose service URL matches is handled and answered
even when its speaker URI names a different agent. -/
theorem c10_addressing (a : Agent) (e : InEvent) :
    (addressedToMe a e = true ↔
      e.«to» = none ∨ ∃ t, e.«to» = some t ∧
        (t.speakerUri = some a.speakerUri ∨ t.serviceUrl = some a.serviceUrl)) ∧
    (∀ t, e.«to» = some t → t.serviceUrl = some a.serviceUrl →
      ∀ (parse : String → Int) (now : Int) (outcome : FetchOutcome)
        (env : Envelope InEvent),
        e.eventType = EventType.utterance →
        respondToEvent a parse now outcome env e =
          some (handleTechQuery a parse now outcome e env)) := by
  constructor
  · cases hto : e.«to» with
    | none => simp [addressedToMe, hto]
    | some t => simp [addressedToMe, hto]
  · intro t ht hsvc parse now outcome env hev
    have haddr : addressedToMe a e = true := by
      simp [addressedToMe, ht, hsvc]
    simp [respondToEvent, haddr, hev]

/-- C10 witness: a concrete utterance addressed by service URL to this
agent and by speaker URI to a different one is answered. -/
theorem c10_witness :
    respondToEvent agentW parseW 0 (.ok respW) envW serviceUrlEvent =
      some (handleTechQuery agentW parseW 0 (.ok respW) serviceUrlEvent envW) :=
  (c10_addressing agentW serviceUrlEvent).2
    { speakerUri := some "tag:example.com,2025:someone-else"
      serviceUrl := some "http://localhost:8080" }
    rfl rfl parseW 0 (.ok respW) envW rfl

/-- C4: for a non-empty item list, the activity level is Very Active
iff the 30-day fraction exceeds 0.7, else Active iff the 90-day
fraction exceeds 0.5, else Moderate iff it exceeds 0.3, else Low; every
item in the 30-day window is also in the 90-day window; and a list
where exactly 70 percent of the items are within 30 days is never Very
Active. -/
theorem c4_activity_thresholds (parse : String → Int) (now : Int)
    (repos : List GitHubRepo) (hne : repos ≠ []) :
    (∀ vrQ rcQ : ℚ,
      vrQ = (repos.countP (isVeryRecent parse now) : ℚ) / (repos.length : ℚ) →
      rcQ = (repos.countP (isRecent parse now) : ℚ) / (repos.length : ℚ) →
      (activityLevel vrQ rcQ = "Very Active" ↔ vrQ > 0.7) ∧
      (activityLevel vrQ rcQ = "Active" ↔ ¬(vrQ > 0.7) ∧ rcQ > 0.5) ∧
      (activityLevel vrQ rcQ = "Moderate" ↔
        ¬(vrQ > 0.7) ∧ ¬(rcQ > 0.5) ∧ rcQ > 0.3) ∧
      (activityLevel vrQ rcQ = "Low" ↔
        ¬(vrQ > 0.7) ∧ ¬(rcQ > 0.5) ∧ ¬(rcQ > 0.3)) ∧
      (10 * repos.countP (isVeryRecent parse now) = 7 * repos.length →
        activityLevel vrQ rcQ ≠ "Very Active")) ∧
    repos.countP (isVeryRecent parse now) ≤ repos.countP (isRecent parse now) := by
  constructor
  · intro vrQ rcQ hv hr
    have hseventy : 10 * repos.countP (isVeryRecent parse now) = 7 * repos.length →
        ¬(vrQ > 0.7) := by
      intro h70
      have hlenpos : 0 < repos.length := List.length_pos.mpr hne
      have hlenQ : (0 : ℚ) < (repos.length : ℚ) := by exact_mod_cast hlenpos
      have hc : (10 : ℚ) * (repos.countP (isVeryRecent parse now) : ℚ)
          = 7 * (repos.length : ℚ) := by exact_mod_cast h70
      have hle : vrQ ≤ 0.7 := by
        rw [hv, div_le_iff₀ hlenQ]
        nlinarith [hc]
      linarith
    by_cases hA : vrQ > 0.7
    · have e : activityLevel vrQ rcQ = "Very Active" := by simp [activityLevel, hA]
      exact ⟨iff_of_true e hA,
        iff_of_false (by rw [e]; decide) (fun hcon => hcon.1 hA),
        iff_of_false (by rw [e]; decide) (fun hcon => hcon.1 hA),
        iff_of_false (by rw [e]; decide) (fun hcon => hcon.1 hA),
        fun h70 => absurd hA (hseventy h70)⟩
    · by_cases hB : rcQ > 0.5
      · have e : activityLevel vrQ rcQ = "Active" := by simp [activityLevel, hA, hB]
        exact ⟨iff_of_false (by rw [e]; decide) hA,
          iff_of_true e ⟨hA, hB⟩,
          iff_of_false (by rw [e]; decide) (fun hcon => hcon.2.1 hB),
          iff_of_false (by rw [e]; decide) (fun hcon => hcon.2.1 hB),
          fun _ => by rw [e]; decide⟩
      · by_cases hC : rcQ > 0.3
        · have e : activityLevel vrQ rcQ = "Moderate" := by
            simp [activityLevel, hA, hB, hC]
          exact ⟨iff_of_false (by rw [e]; decide) hA,
            iff_of_false (by rw [e]; decide) (fun hcon => hB hcon.2),
            iff_of_true e ⟨hA, hB, hC⟩,
            iff_of_false (by rw [e]; decide) (fun hcon => hcon.2.2 hC),
            fun _ => by rw [e]; decide⟩
        · have e : activityLevel vrQ rcQ = "Low" := by
            simp [activityLevel, hA, hB, hC]
          exact ⟨iff_of_false (by rw [e]; decide) hA,
            iff_of_false (by rw [e]; decide) (fun hcon => hB hcon.2),
            iff_of_false (by rw [e]; decide) (fun hcon => hC hcon.2.2),
            iff_of_true e ⟨hA, hB, hC⟩,
            fun _ => by rw [e]; decide⟩
  · apply List.countP_mono_left
    intro r _ h
    simp only [isVeryRecent, Bool.and_eq_true, decide_eq_true_eq] at h
    simp only [isRecent, Bool.and_eq_true, decide_eq_true_eq]
    exact ⟨h.1, by omega⟩

/-- C4 witness at a concrete one-item list. -/
theorem c4_witness :
    ([repoW] : List GitHubRepo) ≠ [] ∧
    ([repoW] : List GitHubRepo).countP (isVeryRecent parseW 0) ≤
      ([repoW] : List GitHubRepo).countP (isRecent parseW 0) :=
  ⟨by decide, (c4_activity_thresholds parseW 0 [repoW] (by decide)).2⟩

/-- The event loop equals the option-valued per-position responses with
the empty ones dropped. -/
theorem processEventsAux_eq_responses (a : Agent) (parse : String → Int) (now : Int)
    (fetch : Nat → FetchOutcome) (env : Envelope InEvent) :
    ∀ (es : List InEvent) (k : Nat),
      processEventsAux a parse now fetch env k es =
        (eventResponses a parse now fetch env k es).reduceOption := by
  intro es
  induction es with
  | nil => intro k; rfl
  | cons e rest ih =>
    intro k
    cases h : respondToEvent a parse now (fetch k) env e with
    | none =>
      simp only [processEventsAux, eventResponses, h, List.reduceOption_cons_of_none]
      exact ih (k + 1)
    | some r =>
      simp only [processEventsAux, eventResponses, h, List.reduceOption_cons_of_some]
      exact congrArg (r :: ·) (ih (k + 1))

/-- Positions other than a distinguished one do not observe a change of
the fetch assignment at that position. -/
theorem eventResponses_agree (a : Agent) (parse : String → Int) (now : Int)
    (fetch fetch2 : Nat → FetchOutcome) (env : Envelope InEvent) (i : Nat)
    (hagree : ∀ j, j ≠ i → fetch2 j = fetch j) :
    ∀ (es : List InEvent) (k m : Nat), k + m ≠ i →
      (eventResponses a parse now fetch2 env k es)[m]? =
        (eventResponses a parse now fetch env k es)[m]? := by
  intro es
  induction es with
  | nil => intro k m _; rfl
  | cons e rest ih =>
    intro k m hm
    cases m with
    | zero =>
      simp only [eventResponses, List.getElem?_cons_zero]
      rw [hagree k (by omega)]
    | succ m2 =>
      simp only [eventResponses, List.getElem?_cons_succ]
      exact ih (k + 1) m2 (by omega)

/-- C2: a per-event failure (a thrown non-timeout error at one
position) is converted into the single apology utterance for that
event, every other position still produces its unchanged reply, the
output envelope is exactly the aggregation of the per-event responses,
and an addressed utterance always yields some reply, so processEnvelope
never aborts. -/
theorem c2_error_isolation (a : Agent) (parse : String → Int) (now : Int)
    (env : Envelope InEvent) (fetch : Nat → FetchOutcome) (i : Nat) (msg : String)
    (hfail : fetch i = .thrown msg) (hnt : strContains msg "timeout" = false) :
    (processEnvelope a parse now fetch env).events =
      (eventResponses a parse now fetch env 0 env.events).reduceOption ∧
    (∀ (hi : i < env.events.length) (ts : List Token),
      addressedToMe a (env.events.get ⟨i, hi⟩) = true →
      (env.events.get ⟨i, hi⟩).eventType = EventType.utterance →
      (env.events.get ⟨i, hi⟩).tokens = some ts → ts ≠ [] →
      isTechQuery (joinTokenValues ts) = true →
      respondToEvent a parse now (fetch i) env (env.events.get ⟨i, hi⟩) =
        some (.utterance a.speakerUri apologyMessage env.sender.speakerUri)) ∧
    (∀ fetch2 : Nat → FetchOutcome, (∀ j, j ≠ i → fetch2 j = fetch j) →
      ∀ j, j ≠ i →
        (eventResponses a parse now fetch2 env 0 env.events)[j]? =
          (eventResponses a parse now fetch env 0 env.events)[j]?) ∧
    (∀ (o : FetchOutcome) (e : InEvent),
      addressedToMe a e = true → e.eventType = EventType.utterance →
      ∃ u, respondToEvent a parse now o env e = some u) := by
  refine ⟨processEventsAux_eq_responses a parse now fetch env env.events 0, ?_, ?_, ?_⟩
  · intro hi ts h1 h2 h3 h4 h5
    simp only [List.get_eq_getElem] at h1 h2 h3
    simp [respondToEvent, h1, h2, handleTechQuery, handleTechQueryWith, h3, h4, h5,
      searchGitHub, hfail, hnt]
  · intro fetch2 hag j hj
    exact eventResponses_agree a parse now fetch fetch2 env i hag env.events 0 j (by omega)
  · intro o e h1 h2
    exact ⟨handleTechQuery a parse now o e env, by simp [respondToEvent, h1, h2]⟩

/-- C2 witness: in the concrete two-event envelope, position 0 fails
with a network error and still yields exactly the apology reply. -/
theorem c2_witness :
    fetchW 0 = FetchOutcome.thrown "connect ECONNREFUSED" ∧
    respondToEvent agentW parseW 0 (fetchW 0) envW (envW.events.get ⟨0, by decide⟩) =
      some (.utterance agentW.speakerUri apologyMessage envW.sender.speakerUri) := by
  have h := c2_error_isolation agentW parseW 0 envW fetchW 0 "connect ECONNREFUSED"
    rfl (by decide)
  exact ⟨rfl, h.2.1 (by decide) [{ value := "react" }] (by decide) rfl rfl
    (by decide) (by decide)⟩

/-- C5 counterexample: the no-closer-than-the-minimum-interval claim
fails on a concrete interleaving in which both callers read the shared
timestamp before either writes it, so both requests go out at clock
2000. -/
theorem c5_counterexample : ¬ rlMinSpacingClaim := by
  intro h
  have h2 := h [.enter 0 0, .enter 1 100, .resume 0 2000, .resume 1 2000] 0 1 2000 2000
    (by decide) (by decide) (by decide)
  rcases h2 with h2 | h2 <;> norm_num [rateLimitDelay] at h2

/-- A successful entry step: the entry conditions held, and the caller
either went to sleep until the read timestamp plus the delay, or
returned at once because the delay had already elapsed, writing the
timestamp. -/
theorem rlStep_enter_cases (s : RLState) (c : Nat) (t : Int) (s1 : RLState)
    (h : rlStep s (.enter c t) = some s1) :
    s.now ≤ t ∧ s.phases c = .idle ∧
    ((rateLimitDelay - (t - s.last) > 0 ∧
        s1 = { now := t, last := s.last,
               phases := setPhase s.phases c
                 (.sleeping (t + (rateLimitDelay - (t - s.last)))) }) ∨
     (¬(rateLimitDelay - (t - s.last) > 0) ∧
        s1 = { now := t, last := t, phases := setPhase s.phases c (.finished t) })) := by
  simp only [rlStep] at h
  split_ifs at h with h1 h2
  · exact ⟨h1.1, h1.2, Or.inl ⟨h2, (Option.some.inj h).symm⟩⟩
  · exact ⟨h1.1, h1.2, Or.inr ⟨h2, (Option.some.inj h).symm⟩⟩

/-- A successful resume step: the caller was asleep, the wake time has
passed, and the caller finishes at the current clock, writing the
timestamp. -/
theorem rlStep_resume_cases (s : RLState) (c : Nat) (t : Int) (s1 : RLState)
    (h : rlStep s (.resume c t) = some s1) :
    ∃ wake, s.phases c = .sleeping wake ∧ s.now ≤ t ∧ wake ≤ t ∧
      s1 = { now := t, last := t, phases := setPhase s.phases c (.finished t) } := by
  simp only [rlStep] at h
  cases hp : s.phases c with
  | idle =>
    simp only [hp] at h
    exact Option.noConfusion h
  | sleeping wake =>
    simp only [hp] at h
    split_ifs at h with h1
    exact ⟨wake, rfl, h1.1, h1.2, (Option.some.inj h).symm⟩
  | finished r0 =>
    simp only [hp] at h
    exact Option.noConfusion h

/-- Running through a valid step continues from its result. -/
theorem rlRun_cons_some (s s1 : RLState) (act : RLAction) (rest : List RLAction)
    (h : rlStep s act = some s1) : rlRun s (act :: rest) = rlRun s1 rest := by
  simp [rlRun, h]

/-- Running through an invalid step fails. -/
theorem rlRun_cons_none (s : RLState) (act : RLAction) (rest : List RLAction)
    (h : rlStep s act = none) : rlRun s (act :: rest) = none := by
  simp [rlRun, h]

/-- One complete call that finishes with request time r satisfies: r is
at least the timestamp the call read plus the delay, and r is written
back as the new shared timestamp. -/
theorem oneCall_run (c : Nat) (acts : List RLAction) (s sEnd : RLState) (r : Int)
    (hc : OneCall c acts) (hrun : rlRun s acts = some sEnd)
    (hfin : sEnd.phases c = .finished r) :
    s.last + rateLimitDelay ≤ r ∧ sEnd.last = r := by
  cases hc with
  | noWait t =>
    cases hstep : rlStep s (.enter c t) with
    | none =>
      rw [rlRun_cons_none s _ _ hstep] at hrun
      exact Option.noConfusion hrun
    | some s1 =>
      rw [rlRun_cons_some s s1 _ _ hstep] at hrun
      simp only [rlRun] at hrun
      have hs : s1 = sEnd := Option.some.inj hrun
      obtain ⟨hnow, hidle, hcases⟩ := rlStep_enter_cases s c t s1 hstep
      rcases hcases with ⟨hw, he⟩ | ⟨hw, he⟩
      · rw [← hs, he] at hfin
        simp [setPhase] at hfin
      · rw [← hs, he] at hfin
        simp [setPhase] at hfin
        subst hfin
        refine ⟨by omega, ?_⟩
        rw [← hs, he]
  | withWait t u =>
    cases hstep : rlStep s (.enter c t) with
    | none =>
      rw [rlRun_cons_none s _ _ hstep] at hrun
      exact Option.noConfusion hrun
    | some s1 =>
      rw [rlRun_cons_some s s1 _ _ hstep] at hrun
      cases hstep2 : rlStep s1 (.resume c u) with
      | none =>
        rw [rlRun_cons_none s1 _ _ hstep2] at hrun
        exact Option.noConfusion hrun
      | some s2 =>
        rw [rlRun_cons_some s1 s2 _ _ hstep2] at hrun
        simp only [rlRun] at hrun
        have hs : s2 = sEnd := Option.some.inj hrun
        obtain ⟨hnow, hidle, hcases⟩ := rlStep_enter_cases s c t s1 hstep
        obtain ⟨wake, hp, hnow2, hwake, he2⟩ := rlStep_resume_cases s1 c u s2 hstep2
        rcases hcases with ⟨hw, he⟩ | ⟨hw, he⟩
        · rw [he] at hp
          simp [setPhase] at hp
          rw [← hs, he2] at hfin
          simp [setPhase] at hfin
          subst hfin
          refine ⟨by omega, ?_⟩
          rw [← hs, he2]
        · rw [he] at hp
          simp [setPhase] at hp

/-- C5 amended: two complete rate-limited calls that do not overlap
(the second runs only after the first has finished) are spaced by at
least the configured minimum interval, and each call records its
request time as the new last-call timestamp. -/
theorem c5_sequential_spacing (s : RLState) (c1 c2 : Nat)
    (acts1 acts2 : List RLAction) (s1 s2 : RLState) (r1 r2 : Int)
    (hc1 : OneCall c1 acts1) (hc2 : OneCall c2 acts2)
    (hr1 : rlRun s acts1 = some s1) (hr2 : rlRun s1 acts2 = some s2)
    (hf1 : s1.phases c1 = .finished r1) (hf2 : s2.phases c2 = .finished r2) :
    r1 + rateLimitDelay ≤ r2 ∧ s1.last = r1 ∧ s2.last = r2 := by
  obtain ⟨hge1, hlast1⟩ := oneCall_run c1 acts1 s s1 r1 hc1 hr1 hf1
  obtain ⟨hge2, hlast2⟩ := oneCall_run c2 acts2 s1 s2 r2 hc2 hr2 hf2
  exact ⟨by omega, hlast1, hlast2⟩

/-- C5 amended witness: caller 0 completes a call from the start state
(request at 2000), then caller 1 completes one sequentially (request at
4000), spaced by the minimum interval. -/
theorem c5_sequential_witness :
    rlRun rlInit [.enter 0 0, .resume 0 2000] = some seqS1 ∧
    rlRun seqS1 [.enter 1 2500, .resume 1 4000] = some seqS2 ∧
    (2000 : Int) + rateLimitDelay ≤ 4000 := by
  refine ⟨rfl, rfl, ?_⟩
  exact (c5_sequential_spacing rlInit 0 1 _ _ seqS1 seqS2 2000 4000
    (OneCall.withWait 0 0 2000) (OneCall.withWait 1 2500 4000) rfl rfl rfl rfl).1

end GitHubAgentModel
